import Mathlib

/-!
Shallow embedding of the OpenNMT-tf training loop (`opennmt/training.py`)
and the learning-rate decay schedules (`opennmt/utils/decay.py`).

The decay schedules are modelled over the real numbers: each Python class
becomes a structure holding its constructor hyperparameters, and its
`__call__` method becomes a function returning the computed rate together
with the post-call object state (the method performs no assignment to
`self`, so the embedding returns the object unchanged).

The training loop is modelled as explicit state passing: the optimizer's
iteration counter, the gradient accumulator, the word-count totals and the
externally observable side effects (checkpoint saves, reports, evaluator
invocations) form a `TrainState`, and each iteration of the `for` loop in
`Trainer.__call__` is one `microStep`.  The optimizer's parameter-update
rule and the per-batch gradients are external collaborators, so they are
universally quantified inputs.  Gradient and word-count values are modelled
as integers: the claims about the loop concern control flow and event
counts, not float arithmetic.
-/

/-! ### Decay schedules (`opennmt/utils/decay.py`) -/

/-- Embedding of `tf.math.rsqrt`: the reciprocal of the square root. -/
noncomputable def rsqrt (x : ℝ) : ℝ := (Real.sqrt x)⁻¹

/-- Hyperparameters of `NoamDecay` as fixed by `NoamDecay.__init__`. -/
structure NoamDecay where
  scale : ℝ
  model_dim : ℝ
  warmup_steps : ℝ

/-- Embedding of `NoamDecay.__call__` (decay.py lines 22-26): the step is
incremented by one, and the result is
`scale * model_dim^(-0.5) * min(step^(-0.5), step * warmup_steps^(-1.5))`.
The second component is the object state after the call (the method writes
no attribute, so it is `self` itself). -/
noncomputable def NoamDecay.call (self : NoamDecay) (step : ℝ) : ℝ × NoamDecay :=
  let s := step + 1
  (self.scale * self.model_dim ^ (-(1 / 2) : ℝ)
      * min (s ^ (-(1 / 2) : ℝ)) (s * self.warmup_steps ^ (-(3 / 2) : ℝ)),
    self)

/-- Hyperparameters of `RsqrtDecay` as fixed by `RsqrtDecay.__init__`. -/
structure RsqrtDecay where
  scale : ℝ
  warmup_steps : ℝ

/-- Embedding of `RsqrtDecay.__call__` (decay.py lines 42-44):
`scale * rsqrt(max(step, warmup_steps))`. -/
noncomputable def RsqrtDecay.call (self : RsqrtDecay) (step : ℝ) : ℝ × RsqrtDecay :=
  (self.scale * rsqrt (max step self.warmup_steps), self)

/-- Hyperparameters of `CosineAnnealing` as fixed by `CosineAnnealing.__init__`;
`warmup_steps` is optional (`None` becomes `none`). -/
structure CosineAnnealing where
  eta_max : ℝ
  eta_min : ℝ
  max_step : ℝ
  warmup_steps : Option ℝ

/-- Embedding of `CosineAnnealing.__call__` (decay.py lines 65-73): when no
warmup is configured, the annealing branch
`eta_min + 0.5 * (eta_max - eta_min) * (1 + cos(pi * step / max_step))`
applies unconditionally; otherwise `tf.cond(step < warmup_steps)` selects
the linear ramp `eta_max * step / warmup_steps` below the warmup bound and
the annealing branch from the bound on. -/
noncomputable def CosineAnnealing.call (self : CosineAnnealing) (step : ℝ) :
    ℝ × CosineAnnealing :=
  let annealing :=
    self.eta_min
      + 0.5 * (self.eta_max - self.eta_min) * (1 + Real.cos (Real.pi * step / self.max_step))
  match self.warmup_steps with
  | none => (annealing, self)
  | some w => (if step < w then self.eta_max * step / w else annealing, self)

/-- Hyperparameters of `RNMTPlusDecay` as fixed by `RNMTPlusDecay.__init__`. -/
structure RNMTPlusDecay where
  scale : ℝ
  num_replicas : ℝ
  warmup_steps : ℝ
  start_step : ℝ
  end_step : ℝ

/-- Embedding of `RNMTPlusDecay.__call__` (decay.py lines 100-108): with
`t = step`, `n = num_replicas`, `p = warmup_steps`, `s = start_step`,
`e = end_step`, the result is
`scale * min(min(1 + (t * (n - 1)) / (n * p), n), n * (2 * n)^((s - n * t) / (e - s)))`.
Note the base of the exponential is `2 * n`. -/
noncomputable def RNMTPlusDecay.call (self : RNMTPlusDecay) (step : ℝ) :
    ℝ × RNMTPlusDecay :=
  let t := step
  let n := self.num_replicas
  let p := self.warmup_steps
  let s := self.start_step
  let e := self.end_step
  (self.scale * min (min (1 + (t * (n - 1)) / (n * p)) n)
      (n * (2 * n) ^ ((s - n * t) / (e - s))),
    self)

/-- The spec's formula for the RNMTPlus schedule, written from the spec's
words for comparison with the source embedding: a three-way minimum whose
exponential-decay term has base `2` (the spec writes
`replicas * 2^((start - replicas * step) / (end - start))`). -/
noncomputable def rnmtPlusSpecFormula
    (scale n p s e t : ℝ) : ℝ :=
  scale * min (1 + t * (n - 1) / (n * p))
    (min n (n * (2 : ℝ) ^ ((s - n * t) / (e - s))))

/-! ### Training loop (`opennmt/training.py`) -/

/-- One batch drawn from the dataset, as seen by one micro-step of the loop:
the (already replica-reduced) per-parameter step gradients produced by
`compute_gradients`, and the word counts `tf.reduce_sum(source["length"])` /
`tf.reduce_sum(target["length"])`, each present only when the corresponding
feature dict has a `"length"` entry. -/
structure Batch where
  grads : List Int
  srcLen : Option Int
  tgtLen : Option Int
  deriving DecidableEq

/-- The keyword arguments of `Trainer.__call__` (training.py lines 35-42)
that steer the loop; `has_evaluator` models `evaluator is not None`. -/
structure TrainerConfig where
  max_step : Option Nat
  accum_steps : Nat
  report_steps : Nat
  save_steps : Option Nat
  eval_steps : Option Nat
  has_evaluator : Bool
  deriving DecidableEq

/-- The mutable state threaded through the loop of `Trainer.__call__`:
the optimizer's iteration counter, the model parameters, the gradient
accumulator (`gradients`), the word-count totals (`accum_num_words`), the
Python locals `last_step`, `last_report_time` and `step` (`step_var` is
`none` while the local is still unbound), an abstract clock, and the logs
of externally visible events: `saved` records the arguments of
`checkpoint.save`, `reports` the steps reported, `evals` the arguments of
`evaluator(step)`. -/
structure TrainState where
  iterations : Nat
  params : List Int
  gradients : List Int
  accum_source : Int
  accum_target : Int
  last_step : Nat
  last_report_time : Nat
  clock : Nat
  step_var : Option Nat
  saved : List Nat
  reports : List Nat
  evals : List Nat
  deriving DecidableEq

/-- The state at loop entry (training.py lines 63-66 and 108-110): the
accumulator holds one zero per parameter, the word totals are zero,
`last_step = 0`, and the local `step` is unbound. -/
def initState (initIterations : Nat) (vars0 : List Int) : TrainState :=
  { iterations := initIterations
    params := vars0
    gradients := vars0.map (fun _ => 0)
    accum_source := 0
    accum_target := 0
    last_step := 0
    last_report_time := 0
    clock := 0
    step_var := none
    saved := []
    reports := []
    evals := [] }

/-- Phase 1 of a micro-step: `_forward()` (training.py lines 68-84 and 91-101)
adds the batch's step gradients into the accumulator
(`gradient.assign_add(step_gradient)`); the abstract clock advances to model
wall time passing. -/
def forwardAccum (b : Batch) (st : TrainState) : TrainState :=
  { st with
    clock := st.clock + 1
    gradients := List.zipWith (fun g dg => g + dg) st.gradients b.grads }

/-- Phase 2 of a micro-step when the apply condition holds: `_step()`
(training.py lines 86-89 and 103-106) hands the zipped
`(gradient, variable)` pairs to `optimizer.apply_gradients` — advancing the
optimizer's iteration counter by one — and zeroes every accumulator slot. -/
def applyAccum (optApply : List (Int × Int) → List Int) (st : TrainState) : TrainState :=
  { st with
    params := optApply (st.gradients.zip st.params)
    iterations := st.iterations + 1
    gradients := st.gradients.map (fun _ => 0) }

/-- Word-count accumulation (training.py lines 117-118): each key present in
`num_words` is added into `accum_num_words`; this runs before the
same-step guard. -/
def addWordCounts (b : Batch) (st : TrainState) : TrainState :=
  { st with
    accum_source := st.accum_source + b.srcLen.getD 0
    accum_target := st.accum_target + b.tgtLen.getD 0 }

/-- Reporting cadence (training.py lines 123-129 and 140-164): every
`report_steps` steps the report is emitted, the word totals are reset and
`last_report_time` is refreshed. -/
def reportPhase (cfg : TrainerConfig) (step : Nat) (st : TrainState) : TrainState :=
  if step % cfg.report_steps = 0 then
    { st with
      reports := st.reports ++ [step]
      last_report_time := st.clock
      accum_source := 0
      accum_target := 0 }
  else st

/-- The checkpoint saves appended by the save cadence of training.py lines
130-131 at a processed step: `[step]` when `save_steps` is configured and
divides the step, `[]` otherwise. -/
def savedAppend (cfg : TrainerConfig) (step : Nat) : List Nat :=
  match cfg.save_steps with
  | some s => if step % s = 0 then [step] else []
  | none => []

/-- Checkpoint cadence (training.py lines 130-131): every `save_steps` steps
(when configured) `checkpoint.save(step)` runs. -/
def savePhase (cfg : TrainerConfig) (step : Nat) (st : TrainState) : TrainState :=
  match cfg.save_steps with
  | some s => if step % s = 0 then { st with saved := st.saved ++ [step] } else st
  | none => st

/-- Evaluation cadence (training.py lines 132-133): every `eval_steps` steps
(when an evaluator and `eval_steps` are configured) `evaluator(step)` runs. -/
def evalPhase (cfg : TrainerConfig) (step : Nat) (st : TrainState) : TrainState :=
  if cfg.has_evaluator then
    match cfg.eval_steps with
    | some e => if step % e = 0 then { st with evals := st.evals ++ [step] } else st
    | none => st
  else st

/-- One iteration of the `for` loop in `Trainer.__call__` (training.py lines
113-135), for the 0-based index `i` and batch `b`.  `optApply` is the
optimizer's update rule `apply_gradients`, applied to the zipped
`(gradient, variable)` pairs.  Returns the new state and whether the body
ended in `break`.  The phases, in source order: `_forward()` accumulates the
step gradients into the accumulator; `_step()` applies and zeroes the
accumulator when `i == 0 or (i + 1) % accum_steps == 0`, advancing the
iteration counter by one; the word counts are added to the totals; the local
`step` is read; the body is cut short when `step == last_step`; otherwise
reporting, checkpointing and evaluation fire on their cadences and the body
breaks when `step == max_step`. -/
def microStep (cfg : TrainerConfig) (optApply : List (Int × Int) → List Int)
    (i : Nat) (b : Batch) (st : TrainState) : TrainState × Bool :=
  let stA := forwardAccum b st
  let stB := if i = 0 ∨ (i + 1) % cfg.accum_steps = 0 then applyAccum optApply stA else stA
  let stC := addWordCounts b stB
  let step := stC.iterations
  let stD := { stC with step_var := some step }
  if step = stD.last_step then (stD, false)
  else
    let stE := { stD with last_step := step }
    let stF := evalPhase cfg step (savePhase cfg step (reportPhase cfg step stE))
    (stF, decide (cfg.max_step = some step))

/-- The `for` loop of `Trainer.__call__` over the remaining batches, from
0-based index `i`: runs `microStep` on each batch until the list is
exhausted or a body ends in `break`.  The boolean records whether the loop
ended by `break` (`true`) or by dataset exhaustion (`false`). -/
def runLoop (cfg : TrainerConfig) (optApply : List (Int × Int) → List Int) :
    Nat → List Batch → TrainState → TrainState × Bool
  | _, [], st => (st, false)
  | i, b :: bs, st =>
    let r := microStep cfg optApply i b st
    if r.2 then (r.1, true) else runLoop cfg optApply (i + 1) bs r.1

/-- Outcome of `Trainer.__call__`: `alreadyReached` is the early return of
training.py lines 55-57 (a warning is logged, no batch is processed, no
checkpoint is saved); `unboundLocalStep` is the `UnboundLocalError` raised
by `self._checkpoint.save(step)` on line 137 when the loop body never ran
and the local `step` was never assigned; `finished` carries the final state
(whose `saved` log includes the final checkpoint) and whether the loop was
stopped by reaching `max_step` rather than by dataset exhaustion. -/
inductive CallResult where
  | alreadyReached
  | unboundLocalStep (st : TrainState)
  | finished (st : TrainState) (stoppedAtMaxStep : Bool)
  deriving DecidableEq

/-- The `checkpoint.save` arguments recorded by an outcome. -/
def CallResult.savedSteps : CallResult → List Nat
  | .alreadyReached => []
  | .unboundLocalStep st => st.saved
  | .finished st _ => st.saved

/-- The part of `Trainer.__call__` after the early-return guard: run the
loop over all batches and then execute `self._checkpoint.save(step)`
(training.py line 137), which raises when the local `step` is unbound. -/
def trainerBody (cfg : TrainerConfig) (optApply : List (Int × Int) → List Int)
    (initIterations : Nat) (vars0 : List Int) (batches : List Batch) : CallResult :=
  let r := runLoop cfg optApply 0 batches (initState initIterations vars0)
  match r.1.step_var with
  | none => CallResult.unboundLocalStep r.1
  | some s => CallResult.finished { r.1 with saved := r.1.saved ++ [s] } r.2

/-- Embedding of `Trainer.__call__` (training.py lines 35-137): when
`max_step` is set and the iteration counter already meets or exceeds it,
log a warning and return at once; otherwise run the loop and the final
checkpoint save. -/
def trainerCall (cfg : TrainerConfig) (optApply : List (Int × Int) → List Int)
    (initIterations : Nat) (vars0 : List Int) (batches : List Batch) : CallResult :=
  match cfg.max_step with
  | some m =>
    if m ≤ initIterations then CallResult.alreadyReached
    else trainerBody cfg optApply initIterations vars0 batches
  | none => trainerBody cfg optApply initIterations vars0 batches

/-- Number of 0-based loop indices `j` with `i ≤ j < i + m` at which the
condition `j == 0 or (j + 1) % accum == 0` of training.py line 114 holds,
i.e. the number of optimizer applications over `m` consecutive micro-steps
starting at index `i`. -/
def countApps (accum : Nat) : Nat → Nat → Nat
  | _, 0 => 0
  | i, m + 1 => (if i = 0 ∨ (i + 1) % accum = 0 then 1 else 0) + countApps accum (i + 1) m

/-! ### Concrete instances used to evaluate the embedding -/

/-- A concrete optimizer update rule for evaluating the loop on closed
inputs: it returns every variable unchanged (the claims about the loop do
not depend on the numeric update the optimizer performs). -/
def keepVars : List (Int × Int) → List Int :=
  fun pairs => pairs.map (fun p => p.2)

/-- A concrete batch: one parameter's gradient is `5`, the source side has
a `"length"` entry summing to `10`, the target side has none. -/
def batch1 : Batch :=
  { grads := [5], srcLen := some 10, tgtLen := none }

/-- Configuration with `accum_steps = 3` and no `max_step`. -/
def cfgAccum3 : TrainerConfig :=
  { max_step := none, accum_steps := 3, report_steps := 100,
    save_steps := some 5000, eval_steps := some 5000, has_evaluator := false }

/-- Configuration with `max_step = 5`. -/
def cfgMax5 : TrainerConfig :=
  { max_step := some 5, accum_steps := 1, report_steps := 100,
    save_steps := some 1, eval_steps := none, has_evaluator := false }

/-- Configuration with `max_step = 10` (used with an empty dataset). -/
def cfgMax10 : TrainerConfig :=
  { max_step := some 10, accum_steps := 1, report_steps := 100,
    save_steps := some 5000, eval_steps := none, has_evaluator := false }

/-- Configuration with no `max_step`, no save cadence and no evaluator. -/
def cfgPlain : TrainerConfig :=
  { max_step := none, accum_steps := 1, report_steps := 100,
    save_steps := none, eval_steps := none, has_evaluator := false }

/-- Configuration with `max_step = 2` and `save_steps = 1` (so `max_step`
is a positive multiple of `save_steps`). -/
def cfgMax2Save1 : TrainerConfig :=
  { max_step := some 2, accum_steps := 1, report_steps := 100,
    save_steps := some 1, eval_steps := none, has_evaluator := false }

/-- A loop state mid-accumulation: the counter sits at `5`, which is also
the last processed step. -/
def stMid : TrainState :=
  { iterations := 5, params := [0], gradients := [0],
    accum_source := 0, accum_target := 0, last_step := 5,
    last_report_time := 0, clock := 7, step_var := some 5,
    saved := [], reports := [], evals := [] }

/-! ### Claim theorems: decay schedules -/

/-- C10: for all four decay schedules, evaluation is a pure function of the
step and the constructor hyperparameters: the object state after a call is
the object itself, and a second evaluation at the same step (on the state
returned by the first) yields the same value. -/
theorem decay_schedules_pure (nd : NoamDecay) (rd : RsqrtDecay)
    (cd : CosineAnnealing) (rp : RNMTPlusDecay) (t : ℝ) :
    ((nd.call t).2 = nd ∧ ((nd.call t).2.call t).1 = (nd.call t).1)
    ∧ ((rd.call t).2 = rd ∧ ((rd.call t).2.call t).1 = (rd.call t).1)
    ∧ ((cd.call t).2 = cd ∧ ((cd.call t).2.call t).1 = (cd.call t).1)
    ∧ ((rp.call t).2 = rp ∧ ((rp.call t).2.call t).1 = (rp.call t).1) := by
  have hcd : (cd.call t).2 = cd := by
    obtain ⟨a, b, c, w⟩ := cd
    cases w <;> rfl
  exact ⟨⟨rfl, rfl⟩, ⟨rfl, rfl⟩, ⟨hcd, by rw [hcd]⟩, ⟨rfl, rfl⟩⟩

/-- C6: the Noam schedule evaluates to
`scale * dim^(-0.5) * min((s+1)^(-0.5), (s+1) * warmup^(-1.5))` — the
caller's step is incremented by one before use; with `scale = 1`,
`dim = 512`, `warmup = 4000` the value at step `0` is
`512^(-0.5) * min(1, 4000^(-1.5))`, and for every step in `[0, 10^6]` the
value is non-negative and bounded above by `512^(-0.5)` (in the real-number
model every value is finite; the explicit bound witnesses it). -/
theorem noamDecay_spec (step : ℝ) (h0 : 0 ≤ step) (h1 : step ≤ 10 ^ 6) :
    (∀ scale model_dim warmup_steps t : ℝ,
        (NoamDecay.call ⟨scale, model_dim, warmup_steps⟩ t).1
          = scale * model_dim ^ (-(1 / 2) : ℝ)
            * min ((t + 1) ^ (-(1 / 2) : ℝ)) ((t + 1) * warmup_steps ^ (-(3 / 2) : ℝ)))
    ∧ (NoamDecay.call ⟨1, 512, 4000⟩ 0).1
        = (512 : ℝ) ^ (-(1 / 2) : ℝ) * min 1 ((4000 : ℝ) ^ (-(3 / 2) : ℝ))
    ∧ 0 ≤ (NoamDecay.call ⟨1, 512, 4000⟩ step).1
    ∧ (NoamDecay.call ⟨1, 512, 4000⟩ step).1 ≤ (512 : ℝ) ^ (-(1 / 2) : ℝ) := by
  have hform : ∀ scale model_dim warmup_steps t : ℝ,
      (NoamDecay.call ⟨scale, model_dim, warmup_steps⟩ t).1
        = scale * model_dim ^ (-(1 / 2) : ℝ)
          * min ((t + 1) ^ (-(1 / 2) : ℝ)) ((t + 1) * warmup_steps ^ (-(3 / 2) : ℝ)) :=
    fun _ _ _ _ => rfl
  have hA : (0 : ℝ) ≤ (512 : ℝ) ^ (-(1 / 2) : ℝ) := Real.rpow_nonneg (by norm_num) _
  have hB : (0 : ℝ) ≤ (step + 1) ^ (-(1 / 2) : ℝ) := Real.rpow_nonneg (by linarith) _
  have hC : (0 : ℝ) ≤ (step + 1) * (4000 : ℝ) ^ (-(3 / 2) : ℝ) :=
    mul_nonneg (by linarith) (Real.rpow_nonneg (by norm_num) _)
  have hB1 : (step + 1) ^ (-(1 / 2) : ℝ) ≤ 1 :=
    Real.rpow_le_one_of_one_le_of_nonpos (by linarith) (by norm_num)
  refine ⟨hform, ?_, ?_, ?_⟩
  · rw [hform]
    norm_num [Real.one_rpow]
  · rw [hform]
    exact mul_nonneg (mul_nonneg (by norm_num) hA) (le_min hB hC)
  · rw [hform]
    calc (1 : ℝ) * (512 : ℝ) ^ (-(1 / 2) : ℝ)
          * min ((step + 1) ^ (-(1 / 2) : ℝ)) ((step + 1) * (4000 : ℝ) ^ (-(3 / 2) : ℝ))
        = (512 : ℝ) ^ (-(1 / 2) : ℝ)
          * min ((step + 1) ^ (-(1 / 2) : ℝ)) ((step + 1) * (4000 : ℝ) ^ (-(3 / 2) : ℝ)) := by
          ring
      _ ≤ (512 : ℝ) ^ (-(1 / 2) : ℝ) * 1 :=
          mul_le_mul_of_nonneg_left (le_trans (min_le_left _ _) hB1) hA
      _ = (512 : ℝ) ^ (-(1 / 2) : ℝ) := mul_one _

/-- Closed instance of `noamDecay_spec` at step `3`. -/
theorem noamDecay_spec_witness :
    0 ≤ (NoamDecay.call ⟨1, 512, 4000⟩ 3).1 :=
  (noamDecay_spec 3 (by norm_num) (by norm_num)).2.2.1

/-- C8: the Rsqrt schedule with scale `s` and warmup `w` (positive, as a
scale constant and a warmup step count are) evaluates to
`s * (max(step, w))^(-0.5)`; it is constant at `s / sqrt w` for every step
at most `w`, strictly decreases above `w`, and with `s = 2`, `w = 1000` the
constant is `2 / sqrt 1000`. -/
theorem rsqrtDecay_spec (scale warmup_steps : ℝ)
    (hs : 0 < scale) (hw : 0 < warmup_steps) :
    (∀ t : ℝ, (RsqrtDecay.call ⟨scale, warmup_steps⟩ t).1
        = scale * max t warmup_steps ^ (-(1 / 2) : ℝ))
    ∧ (∀ t : ℝ, t ≤ warmup_steps →
        (RsqrtDecay.call ⟨scale, warmup_steps⟩ t).1 = scale / Real.sqrt warmup_steps)
    ∧ (∀ a b : ℝ, warmup_steps < a → a < b →
        (RsqrtDecay.call ⟨scale, warmup_steps⟩ b).1
          < (RsqrtDecay.call ⟨scale, warmup_steps⟩ a).1)
    ∧ (∀ t : ℝ, t ≤ 1000 →
        (RsqrtDecay.call ⟨2, 1000⟩ t).1 = 2 / Real.sqrt 1000) := by
  refine ⟨?_, ?_, ?_, ?_⟩
  · intro t
    have hmax : (0 : ℝ) ≤ max t warmup_steps := le_trans hw.le (le_max_right _ _)
    show scale * rsqrt (max t warmup_steps) = _
    rw [rsqrt, Real.rpow_neg hmax, ← Real.sqrt_eq_rpow]
  · intro t ht
    show scale * rsqrt (max t warmup_steps) = _
    rw [rsqrt, max_eq_right ht, div_eq_mul_inv]
  · intro a b ha hab
    have h0a : (0 : ℝ) < a := hw.trans ha
    show scale * rsqrt (max b warmup_steps) < scale * rsqrt (max a warmup_steps)
    rw [rsqrt, rsqrt, max_eq_left (le_of_lt (ha.trans hab)), max_eq_left ha.le]
    have h1 : 0 < Real.sqrt a := Real.sqrt_pos.mpr h0a
    have h2 : Real.sqrt a < Real.sqrt b := Real.sqrt_lt_sqrt h0a.le hab
    exact mul_lt_mul_of_pos_left (inv_lt_inv_of_lt h1 h2) hs
  · intro t ht
    show (2 : ℝ) * rsqrt (max t 1000) = _
    rw [rsqrt, max_eq_right ht, div_eq_mul_inv]

/-- Closed instance of `rsqrtDecay_spec`: with scale `2`, warmup `1000`,
the step-`500` value is the warmup constant `2 / sqrt 1000`. -/
theorem rsqrtDecay_spec_witness :
    (RsqrtDecay.call ⟨2, 1000⟩ 500).1 = 2 / Real.sqrt 1000 :=
  (rsqrtDecay_spec 2 1000 (by norm_num) (by norm_num)).2.2.2 500 (by norm_num)

/-- C7: the CosineAnnealing schedule takes the linear-warmup branch
`eta_max * step / w` exactly when a warmup `w` is configured and
`step < w`, and the annealing branch
`eta_min + 0.5 * (eta_max - eta_min) * (1 + cos(pi * step / max_step))`
otherwise (also for every step when no warmup is configured); with
`eta_max = 1`, `eta_min = 0`, `max_step = 1000` and no warmup the value at
step `0` is `1`, the value at step `1000` is `0`, and the value is
non-increasing over `[0, 1000]`. -/
theorem cosineAnnealing_spec (s t : ℝ) (hs0 : 0 ≤ s) (hst : s ≤ t) (ht : t ≤ 1000) :
    (∀ (emax emin ms w u : ℝ), u < w →
        (CosineAnnealing.call ⟨emax, emin, ms, some w⟩ u).1 = emax * u / w)
    ∧ (∀ (emax emin ms w u : ℝ), ¬u < w →
        (CosineAnnealing.call ⟨emax, emin, ms, some w⟩ u).1
          = emin + 0.5 * (emax - emin) * (1 + Real.cos (Real.pi * u / ms)))
    ∧ (∀ (emax emin ms u : ℝ),
        (CosineAnnealing.call ⟨emax, emin, ms, none⟩ u).1
          = emin + 0.5 * (emax - emin) * (1 + Real.cos (Real.pi * u / ms)))
    ∧ (CosineAnnealing.call ⟨1, 0, 1000, none⟩ 0).1 = 1
    ∧ (CosineAnnealing.call ⟨1, 0, 1000, none⟩ 1000).1 = 0
    ∧ (CosineAnnealing.call ⟨1, 0, 1000, none⟩ t).1
        ≤ (CosineAnnealing.call ⟨1, 0, 1000, none⟩ s).1 := by
  refine ⟨?_, ?_, ?_, ?_, ?_, ?_⟩
  · intro emax emin ms w u hu
    simp [CosineAnnealing.call, if_pos hu]
  · intro emax emin ms w u hu
    simp [CosineAnnealing.call, if_neg hu]
  · intro emax emin ms u
    simp [CosineAnnealing.call]
  · show (0 : ℝ) + 0.5 * (1 - 0) * (1 + Real.cos (Real.pi * 0 / 1000)) = 1
    norm_num
  · show (0 : ℝ) + 0.5 * (1 - 0) * (1 + Real.cos (Real.pi * 1000 / 1000)) = 0
    rw [show Real.pi * 1000 / 1000 = Real.pi from by ring, Real.cos_pi]
    norm_num
  · show (0 : ℝ) + 0.5 * (1 - 0) * (1 + Real.cos (Real.pi * t / 1000))
        ≤ (0 : ℝ) + 0.5 * (1 - 0) * (1 + Real.cos (Real.pi * s / 1000))
    have hπ := Real.pi_pos
    have hcos : Real.cos (Real.pi * t / 1000) ≤ Real.cos (Real.pi * s / 1000) := by
      apply Real.cos_le_cos_of_nonneg_of_le_pi
      · exact div_nonneg (mul_nonneg hπ.le hs0) (by norm_num)
      · rw [div_le_iff₀ (by norm_num : (0 : ℝ) < 1000)]
        nlinarith
      · gcongr
    linarith

/-- Closed instance of `cosineAnnealing_spec` at `s = 100`, `t = 900`:
the step-`900` value is at most the step-`100` value. -/
theorem cosineAnnealing_spec_witness :
    (CosineAnnealing.call ⟨1, 0, 1000, none⟩ 900).1
      ≤ (CosineAnnealing.call ⟨1, 0, 1000, none⟩ 100).1 :=
  (cosineAnnealing_spec 100 900 (by norm_num) (by norm_num) (by norm_num)).2.2.2.2.2

/-- C3 counterexample: at `scale = 1`, `replicas = 4`, `warmup = 500`,
`start = 600000`, `end = 1200000`, `step = 300000`, the source's RNMTPlus
value (exponential base `2 * replicas = 8`) is `1/2`, while the spec's
formula (exponential base `2`) evaluates to `2`; the two disagree. -/
theorem rnmtPlus_base_counterexample :
    (RNMTPlusDecay.call ⟨1, 4, 500, 600000, 1200000⟩ 300000).1
      ≠ rnmtPlusSpecFormula 1 4 500 600000 1200000 300000 := by
  have hcode : (RNMTPlusDecay.call ⟨1, 4, 500, 600000, 1200000⟩ 300000).1 = 1 / 2 := by
    show (1 : ℝ) * min (min (1 + ((300000 : ℝ) * (4 - 1)) / (4 * 500)) 4)
        (4 * (2 * 4) ^ (((600000 : ℝ) - 4 * 300000) / (1200000 - 600000))) = 1 / 2
    rw [show ((600000 : ℝ) - 4 * 300000) / (1200000 - 600000) = -1 from by norm_num]
    rw [Real.rpow_neg_one]
    rw [show (1 : ℝ) + 300000 * (4 - 1) / (4 * 500) = 451 from by norm_num]
    rw [show (2 : ℝ) * 4 = 8 from by norm_num]
    rw [min_eq_right (by norm_num : (4 : ℝ) ≤ 451)]
    rw [min_eq_right (by norm_num : (4 : ℝ) * (8 : ℝ)⁻¹ ≤ 4)]
    norm_num
  have hspec : rnmtPlusSpecFormula 1 4 500 600000 1200000 300000 = 2 := by
    show (1 : ℝ) * min (1 + (300000 : ℝ) * (4 - 1) / (4 * 500))
        (min 4 (4 * (2 : ℝ) ^ (((600000 : ℝ) - 4 * 300000) / (1200000 - 600000)))) = 2
    rw [show ((600000 : ℝ) - 4 * 300000) / (1200000 - 600000) = -1 from by norm_num]
    rw [Real.rpow_neg_one]
    rw [show (1 : ℝ) + 300000 * (4 - 1) / (4 * 500) = 451 from by norm_num]
    rw [show (4 : ℝ) * (2 : ℝ)⁻¹ = 2 from by norm_num]
    rw [min_eq_right (by norm_num : (2 : ℝ) ≤ 4)]
    rw [min_eq_right (by norm_num : (2 : ℝ) ≤ 451)]
    norm_num
  rw [hcode, hspec]
  norm_num

/-- C3 amended: for every step `t` and hyperparameters, the RNMTPlus
schedule evaluates to the three-way minimum
`scale * min(1 + t*(n-1)/(n*p), n, n * (2*n)^((s - n*t)/(e - s)))` — the
exponential-decay term has base `2 * n` (twice the replica count), not
base `2`. -/
theorem rnmtPlus_call_eq_threeway (scale n p s e t : ℝ) :
    (RNMTPlusDecay.call ⟨scale, n, p, s, e⟩ t).1
      = scale * min (1 + t * (n - 1) / (n * p))
          (min n (n * (2 * n) ^ ((s - n * t) / (e - s)))) := by
  show scale * min (min (1 + t * (n - 1) / (n * p)) n)
      (n * (2 * n) ^ ((s - n * t) / (e - s))) = _
  rw [min_assoc]

/-! ### Training loop: phase lemmas -/

theorem reportPhase_iterations (cfg : TrainerConfig) (step : Nat) (st : TrainState) :
    (reportPhase cfg step st).iterations = st.iterations := by
  unfold reportPhase; split <;> rfl

theorem reportPhase_params (cfg : TrainerConfig) (step : Nat) (st : TrainState) :
    (reportPhase cfg step st).params = st.params := by
  unfold reportPhase; split <;> rfl

theorem reportPhase_gradients (cfg : TrainerConfig) (step : Nat) (st : TrainState) :
    (reportPhase cfg step st).gradients = st.gradients := by
  unfold reportPhase; split <;> rfl

theorem reportPhase_last_step (cfg : TrainerConfig) (step : Nat) (st : TrainState) :
    (reportPhase cfg step st).last_step = st.last_step := by
  unfold reportPhase; split <;> rfl

theorem reportPhase_step_var (cfg : TrainerConfig) (step : Nat) (st : TrainState) :
    (reportPhase cfg step st).step_var = st.step_var := by
  unfold reportPhase; split <;> rfl

theorem reportPhase_saved (cfg : TrainerConfig) (step : Nat) (st : TrainState) :
    (reportPhase cfg step st).saved = st.saved := by
  unfold reportPhase; split <;> rfl

theorem savePhase_iterations (cfg : TrainerConfig) (step : Nat) (st : TrainState) :
    (savePhase cfg step st).iterations = st.iterations := by
  unfold savePhase; split <;> (try split) <;> rfl

theorem savePhase_params (cfg : TrainerConfig) (step : Nat) (st : TrainState) :
    (savePhase cfg step st).params = st.params := by
  unfold savePhase; split <;> (try split) <;> rfl

theorem savePhase_gradients (cfg : TrainerConfig) (step : Nat) (st : TrainState) :
    (savePhase cfg step st).gradients = st.gradients := by
  unfold savePhase; split <;> (try split) <;> rfl

theorem savePhase_last_step (cfg : TrainerConfig) (step : Nat) (st : TrainState) :
    (savePhase cfg step st).last_step = st.last_step := by
  unfold savePhase; split <;> (try split) <;> rfl

theorem savePhase_step_var (cfg : TrainerConfig) (step : Nat) (st : TrainState) :
    (savePhase cfg step st).step_var = st.step_var := by
  unfold savePhase; split <;> (try split) <;> rfl

theorem savePhase_saved (cfg : TrainerConfig) (step : Nat) (st : TrainState) :
    (savePhase cfg step st).saved = st.saved ++ savedAppend cfg step := by
  unfold savePhase savedAppend
  rcases cfg.save_steps with _ | s
  · simp
  · by_cases h : step % s = 0 <;> simp [h]

theorem evalPhase_iterations (cfg : TrainerConfig) (step : Nat) (st : TrainState) :
    (evalPhase cfg step st).iterations = st.iterations := by
  unfold evalPhase; split <;> (try split) <;> (try split) <;> rfl

theorem evalPhase_params (cfg : TrainerConfig) (step : Nat) (st : TrainState) :
    (evalPhase cfg step st).params = st.params := by
  unfold evalPhase; split <;> (try split) <;> (try split) <;> rfl

theorem evalPhase_gradients (cfg : TrainerConfig) (step : Nat) (st : TrainState) :
    (evalPhase cfg step st).gradients = st.gradients := by
  unfold evalPhase; split <;> (try split) <;> (try split) <;> rfl

theorem evalPhase_last_step (cfg : TrainerConfig) (step : Nat) (st : TrainState) :
    (evalPhase cfg step st).last_step = st.last_step := by
  unfold evalPhase; split <;> (try split) <;> (try split) <;> rfl

theorem evalPhase_step_var (cfg : TrainerConfig) (step : Nat) (st : TrainState) :
    (evalPhase cfg step st).step_var = st.step_var := by
  unfold evalPhase; split <;> (try split) <;> (try split) <;> rfl

theorem evalPhase_saved (cfg : TrainerConfig) (step : Nat) (st : TrainState) :
    (evalPhase cfg step st).saved = st.saved := by
  unfold evalPhase; split <;> (try split) <;> (try split) <;> rfl

/-! ### Training loop: micro-step lemmas -/

/-- The iteration counter advances by one exactly when the apply condition
of training.py line 114 holds, else it is unchanged. -/
theorem microStep_iterations (cfg : TrainerConfig) (f : List (Int × Int) → List Int)
    (i : Nat) (b : Batch) (st : TrainState) :
    (microStep cfg f i b st).1.iterations
      = st.iterations + (if i = 0 ∨ (i + 1) % cfg.accum_steps = 0 then 1 else 0) := by
  by_cases hap : i = 0 ∨ (i + 1) % cfg.accum_steps = 0 <;>
    simp only [microStep, hap, if_true, if_false, forwardAccum, applyAccum, addWordCounts] <;>
    split_ifs <;>
    simp [evalPhase_iterations, savePhase_iterations, reportPhase_iterations]

/-- After any micro-step the local `step` holds the post-step counter. -/
theorem microStep_step_var (cfg : TrainerConfig) (f : List (Int × Int) → List Int)
    (i : Nat) (b : Batch) (st : TrainState) :
    (microStep cfg f i b st).1.step_var
      = some (st.iterations + (if i = 0 ∨ (i + 1) % cfg.accum_steps = 0 then 1 else 0)) := by
  by_cases hap : i = 0 ∨ (i + 1) % cfg.accum_steps = 0 <;>
    simp only [microStep, hap, if_true, if_false, forwardAccum, applyAccum, addWordCounts] <;>
    split_ifs <;>
    simp [evalPhase_step_var, savePhase_step_var, reportPhase_step_var]

/-- The accumulator after a micro-step: zeroed when the apply condition
holds, otherwise it carries the accumulated gradients. -/
theorem microStep_gradients (cfg : TrainerConfig) (f : List (Int × Int) → List Int)
    (i : Nat) (b : Batch) (st : TrainState) :
    (microStep cfg f i b st).1.gradients
      = if i = 0 ∨ (i + 1) % cfg.accum_steps = 0 then
          (List.zipWith (fun g dg => g + dg) st.gradients b.grads).map (fun _ => 0)
        else List.zipWith (fun g dg => g + dg) st.gradients b.grads := by
  by_cases hap : i = 0 ∨ (i + 1) % cfg.accum_steps = 0 <;>
    simp only [microStep, hap, if_true, if_false, forwardAccum, applyAccum, addWordCounts] <;>
    split_ifs <;>
    simp [evalPhase_gradients, savePhase_gradients, reportPhase_gradients]

/-- The parameters after a micro-step: updated through the optimizer on the
zipped `(gradient, variable)` pairs when the apply condition holds,
otherwise unchanged. -/
theorem microStep_params (cfg : TrainerConfig) (f : List (Int × Int) → List Int)
    (i : Nat) (b : Batch) (st : TrainState) :
    (microStep cfg f i b st).1.params
      = if i = 0 ∨ (i + 1) % cfg.accum_steps = 0 then
          f ((List.zipWith (fun g dg => g + dg) st.gradients b.grads).zip st.params)
        else st.params := by
  by_cases hap : i = 0 ∨ (i + 1) % cfg.accum_steps = 0 <;>
    simp only [microStep, hap, if_true, if_false, forwardAccum, applyAccum, addWordCounts] <;>
    split_ifs <;>
    simp [evalPhase_params, savePhase_params, reportPhase_params]

/-- Frame of a skipped micro-step (training.py lines 120-121): when the
post-step counter equals `last_step`, the body runs `continue` — the saves,
reports, evaluations, `last_report_time` and `last_step` are untouched and
the body does not break — but the word counts were already accumulated on
lines 117-118, before the guard. -/
theorem microStep_skip_frame (cfg : TrainerConfig) (f : List (Int × Int) → List Int)
    (i : Nat) (b : Batch) (st : TrainState)
    (h : st.iterations + (if i = 0 ∨ (i + 1) % cfg.accum_steps = 0 then 1 else 0)
          = st.last_step) :
    (microStep cfg f i b st).1.saved = st.saved
    ∧ (microStep cfg f i b st).1.reports = st.reports
    ∧ (microStep cfg f i b st).1.evals = st.evals
    ∧ (microStep cfg f i b st).1.last_report_time = st.last_report_time
    ∧ (microStep cfg f i b st).1.last_step = st.last_step
    ∧ (microStep cfg f i b st).1.accum_source = st.accum_source + b.srcLen.getD 0
    ∧ (microStep cfg f i b st).1.accum_target = st.accum_target + b.tgtLen.getD 0
    ∧ (microStep cfg f i b st).2 = false := by
  by_cases hap : i = 0 ∨ (i + 1) % cfg.accum_steps = 0 <;>
    simp only [hap, if_true, if_false] at h <;>
    simp only [microStep, hap, if_true, if_false, forwardAccum, applyAccum, addWordCounts] <;>
    split_ifs with hg <;>
    simp_all

/-- Effect of a processed micro-step (training.py lines 122-135): when the
post-step counter differs from `last_step`, `last_step` is set to it, the
save cadence appends `savedAppend`, and the body breaks exactly when the
counter equals `max_step`. -/
theorem microStep_processed (cfg : TrainerConfig) (f : List (Int × Int) → List Int)
    (i : Nat) (b : Batch) (st : TrainState)
    (h : st.iterations + (if i = 0 ∨ (i + 1) % cfg.accum_steps = 0 then 1 else 0)
          ≠ st.last_step) :
    (microStep cfg f i b st).1.last_step
        = st.iterations + (if i = 0 ∨ (i + 1) % cfg.accum_steps = 0 then 1 else 0)
    ∧ (microStep cfg f i b st).1.saved
        = st.saved ++ savedAppend cfg
            (st.iterations + (if i = 0 ∨ (i + 1) % cfg.accum_steps = 0 then 1 else 0))
    ∧ (microStep cfg f i b st).2
        = decide (cfg.max_step
            = some (st.iterations + (if i = 0 ∨ (i + 1) % cfg.accum_steps = 0 then 1 else 0))) := by
  by_cases hap : i = 0 ∨ (i + 1) % cfg.accum_steps = 0 <;>
    simp only [hap, if_true, if_false] at h <;>
    simp only [microStep, hap, if_true, if_false, forwardAccum, applyAccum, addWordCounts] <;>
    split_ifs with hg <;>
    simp_all [evalPhase_last_step, savePhase_last_step, reportPhase_last_step,
      evalPhase_saved, savePhase_saved, reportPhase_saved]

/-- With no `max_step`, the loop never breaks and the counter gains exactly
the number of apply points among the executed micro-step indices. -/
theorem runLoop_no_max (cfg : TrainerConfig) (f : List (Int × Int) → List Int)
    (hnone : cfg.max_step = none) :
    ∀ (bs : List Batch) (i : Nat) (st : TrainState),
      (runLoop cfg f i bs st).1.iterations
          = st.iterations + countApps cfg.accum_steps i bs.length
      ∧ (runLoop cfg f i bs st).2 = false := by
  intro bs
  induction bs with
  | nil => intro i st; simp [runLoop, countApps]
  | cons b bs ih =>
    intro i st
    have hb := microStep_iterations cfg f i b st
    have hbrk : (microStep cfg f i b st).2 = false := by
      by_cases h : st.iterations + (if i = 0 ∨ (i + 1) % cfg.accum_steps = 0 then 1 else 0)
          = st.last_step
      · exact (microStep_skip_frame cfg f i b st h).2.2.2.2.2.2.2
      · rw [(microStep_processed cfg f i b st h).2.2, hnone]
        simp
    rcases ih (i + 1) (microStep cfg f i b st).1 with ⟨ih1, ih2⟩
    constructor
    · simp only [runLoop, hbrk, Bool.false_eq_true, if_false]
      rw [ih1, hb]
      simp only [List.length_cons, countApps]
      omega
    · simp only [runLoop, hbrk, Bool.false_eq_true, if_false]
      exact ih2

/-- Apply-point counts over consecutive index ranges add up. -/
theorem countApps_add (a : Nat) :
    ∀ (m : Nat) (i n : Nat),
      countApps a i (m + n) = countApps a i m + countApps a (i + m) n := by
  intro m
  induction m with
  | zero => intro i n; simp [countApps]
  | succ m ih =>
    intro i n
    have h1 : m + 1 + n = (m + n) + 1 := by omega
    simp only [h1, countApps, ih (i + 1) n]
    have h2 : i + 1 + m = i + (m + 1) := by omega
    rw [h2]
    omega

/-- Past the very first window, each window of three consecutive
micro-steps contains exactly one apply point for `accum_steps = 3`. -/
theorem countApps_three_window (k : Nat) (hk : 1 ≤ k) :
    countApps 3 (3 * k) 3 = 1 := by
  have h1 : ¬(3 * k = 0 ∨ (3 * k + 1) % 3 = 0) := by omega
  have h2 : ¬(3 * k + 1 = 0 ∨ (3 * k + 1 + 1) % 3 = 0) := by omega
  have h3 : (3 * k + 2 = 0 ∨ (3 * k + 2 + 1) % 3 = 0) := by omega
  simp only [countApps]
  rw [if_neg h1, if_neg h2, if_pos h3]

/-! ### Claim theorems: training loop -/

/-- C1: the accumulated gradients are applied to the parameters and the
accumulator is reset exactly on the first micro-step and on every
micro-step whose 1-based index is a multiple of `accum_steps` (the code's
`i == 0 or (i + 1) % accum_steps == 0`), the counter advances by exactly
one at those points and not at all elsewhere, and with `accum_steps = 3`
every window of three micro-steps after the first advances the counter
exactly once. -/
theorem training_accumulation_protocol (cfg : TrainerConfig)
    (f : List (Int × Int) → List Int) (i : Nat) (b : Batch) (st : TrainState)
    (hacc : 0 < cfg.accum_steps) :
    ((i = 0 ∨ (i + 1) % cfg.accum_steps = 0) ↔ (i + 1 = 1 ∨ cfg.accum_steps ∣ (i + 1)))
    ∧ ((i = 0 ∨ (i + 1) % cfg.accum_steps = 0) →
        (microStep cfg f i b st).1.iterations = st.iterations + 1
        ∧ (microStep cfg f i b st).1.gradients
            = (List.zipWith (fun g dg => g + dg) st.gradients b.grads).map (fun _ => 0)
        ∧ (microStep cfg f i b st).1.params
            = f ((List.zipWith (fun g dg => g + dg) st.gradients b.grads).zip st.params))
    ∧ (¬(i = 0 ∨ (i + 1) % cfg.accum_steps = 0) →
        (microStep cfg f i b st).1.iterations = st.iterations
        ∧ (microStep cfg f i b st).1.gradients
            = List.zipWith (fun g dg => g + dg) st.gradients b.grads
        ∧ (microStep cfg f i b st).1.params = st.params)
    ∧ (cfg.accum_steps = 3 → cfg.max_step = none →
        ∀ (bs : List Batch) (init : Nat) (vars0 : List Int) (k : Nat),
          1 ≤ k → 3 * k + 3 ≤ bs.length →
          (runLoop cfg f 0 (bs.take (3 * k + 3)) (initState init vars0)).1.iterations
            = (runLoop cfg f 0 (bs.take (3 * k)) (initState init vars0)).1.iterations + 1) := by
  refine ⟨?_, ?_, ?_, ?_⟩
  · have hm : (i + 1) % cfg.accum_steps = 0 ↔ cfg.accum_steps ∣ (i + 1) :=
      Nat.dvd_iff_mod_eq_zero.symm
    constructor
    · rintro (h | h)
      · exact Or.inl (by omega)
      · exact Or.inr (hm.mp h)
    · rintro (h | h)
      · exact Or.inl (by omega)
      · exact Or.inr (hm.mpr h)
  · intro hap
    refine ⟨?_, ?_, ?_⟩
    · rw [microStep_iterations, if_pos hap]
    · rw [microStep_gradients, if_pos hap]
    · rw [microStep_params, if_pos hap]
  · intro hap
    refine ⟨?_, ?_, ?_⟩
    · rw [microStep_iterations, if_neg hap]
      omega
    · rw [microStep_gradients, if_neg hap]
    · rw [microStep_params, if_neg hap]
  · intro h3 hnone bs init vars0 k hk hlen
    have hlen1 : (bs.take (3 * k + 3)).length = 3 * k + 3 := by
      simp [List.length_take]
      omega
    have hlen2 : (bs.take (3 * k)).length = 3 * k := by
      simp [List.length_take]
      omega
    have r1 := (runLoop_no_max cfg f hnone (bs.take (3 * k + 3)) 0 (initState init vars0)).1
    have r2 := (runLoop_no_max cfg f hnone (bs.take (3 * k)) 0 (initState init vars0)).1
    rw [hlen1] at r1
    rw [hlen2] at r2
    rw [r1, r2, h3]
    have hsplit := countApps_add 3 (3 * k) 0 3
    simp only [Nat.zero_add] at hsplit
    have hwin := countApps_three_window k hk
    simp only [initState]
    omega

/-- Closed instance of `training_accumulation_protocol` with
`accum_steps = 3` at micro-step index `2` (1-based index `3`): the counter
advances by one there. -/
theorem training_accumulation_protocol_witness :
    (microStep cfgAccum3 keepVars 2 batch1 stMid).1.iterations = stMid.iterations + 1 :=
  ((training_accumulation_protocol cfgAccum3 keepVars 2 batch1 stMid (by decide)).2.1
    (by decide)).1

/-- C2 counterexample: a concrete mid-accumulation micro-step
(`accum_steps = 3`, index `1`, counter and `last_step` both `5`) leaves the
counter equal to the previously observed step, yet the source word-count
total changes (training.py lines 117-118 run before the guard on line 120),
refuting the claim that such a micro-step leaves the word-count totals
unchanged. -/
theorem training_skip_words_counterexample :
    (microStep cfgAccum3 keepVars 1 batch1 stMid).1.iterations = stMid.last_step
    ∧ (microStep cfgAccum3 keepVars 1 batch1 stMid).1.accum_source
        ≠ stMid.accum_source := by
  decide

/-- C2 amended: on every micro-step after which the global step counter
equals the previously observed step, the loop skips the report, checkpoint
and evaluation post-processing — the saves, reports, evaluations,
`last_report_time` and `last_step` are unchanged and the loop does not
break — but the returned word counts are still accumulated into the running
totals, because that accumulation precedes the guard. -/
theorem training_skip_frame_amended (cfg : TrainerConfig)
    (f : List (Int × Int) → List Int) (i : Nat) (b : Batch) (st : TrainState)
    (h : (microStep cfg f i b st).1.iterations = st.last_step) :
    (microStep cfg f i b st).1.saved = st.saved
    ∧ (microStep cfg f i b st).1.reports = st.reports
    ∧ (microStep cfg f i b st).1.evals = st.evals
    ∧ (microStep cfg f i b st).1.last_report_time = st.last_report_time
    ∧ (microStep cfg f i b st).1.last_step = st.last_step
    ∧ (microStep cfg f i b st).1.accum_source = st.accum_source + b.srcLen.getD 0
    ∧ (microStep cfg f i b st).1.accum_target = st.accum_target + b.tgtLen.getD 0
    ∧ (microStep cfg f i b st).2 = false := by
  rw [microStep_iterations] at h
  exact microStep_skip_frame cfg f i b st h

/-- Closed instance of `training_skip_frame_amended` on the
mid-accumulation micro-step of the counterexample. -/
theorem training_skip_frame_amended_witness :
    (microStep cfgAccum3 keepVars 1 batch1 stMid).1.saved = stMid.saved
    ∧ (microStep cfgAccum3 keepVars 1 batch1 stMid).1.reports = stMid.reports
    ∧ (microStep cfgAccum3 keepVars 1 batch1 stMid).1.evals = stMid.evals
    ∧ (microStep cfgAccum3 keepVars 1 batch1 stMid).1.last_report_time
        = stMid.last_report_time
    ∧ (microStep cfgAccum3 keepVars 1 batch1 stMid).1.last_step = stMid.last_step
    ∧ (microStep cfgAccum3 keepVars 1 batch1 stMid).1.accum_source
        = stMid.accum_source + batch1.srcLen.getD 0
    ∧ (microStep cfgAccum3 keepVars 1 batch1 stMid).1.accum_target
        = stMid.accum_target + batch1.tgtLen.getD 0
    ∧ (microStep cfgAccum3 keepVars 1 batch1 stMid).2 = false :=
  training_skip_frame_amended cfgAccum3 keepVars 1 batch1 stMid (by decide)

/-- C4 counterexample: with `max_step = 5` and the counter already at `5`,
the call returns through the early-exit warning path (training.py lines
55-57) and the recorded `checkpoint.save` log is empty — no final
checkpoint is persisted, refuting the claimed STOPPED save action. -/
theorem trainer_already_reached_counterexample :
    trainerCall cfgMax5 keepVars 5 [0] [batch1] = CallResult.alreadyReached
    ∧ (trainerCall cfgMax5 keepVars 5 [0] [batch1]).savedSteps = [] := by
  decide

/-- C4 amended: when the counter already meets or exceeds `max_step`, the
call logs the warning and returns immediately: it is the `alreadyReached`
outcome, saves no checkpoint at all, and is independent of the dataset
(no batch is processed). -/
theorem trainer_already_reached_amended (cfg : TrainerConfig)
    (f : List (Int × Int) → List Int) (init : Nat) (vars0 : List Int)
    (batches : List Batch) (m : Nat)
    (hm : cfg.max_step = some m) (h : m ≤ init) :
    trainerCall cfg f init vars0 batches = CallResult.alreadyReached
    ∧ (trainerCall cfg f init vars0 batches).savedSteps = []
    ∧ trainerCall cfg f init vars0 batches = trainerCall cfg f init vars0 [] := by
  have h1 : trainerCall cfg f init vars0 batches = CallResult.alreadyReached := by
    simp [trainerCall, hm, h]
  have h2 : trainerCall cfg f init vars0 [] = CallResult.alreadyReached := by
    simp [trainerCall, hm, h]
  exact ⟨h1, by rw [h1]; rfl, by rw [h1, h2]⟩

/-- Closed instance of `trainer_already_reached_amended` with
`max_step = 5` and the counter at `5`. -/
theorem trainer_already_reached_amended_witness :
    trainerCall cfgMax5 keepVars 5 [0] [batch1] = CallResult.alreadyReached
    ∧ (trainerCall cfgMax5 keepVars 5 [0] [batch1]).savedSteps = []
    ∧ trainerCall cfgMax5 keepVars 5 [0] [batch1]
        = trainerCall cfgMax5 keepVars 5 [0] [] :=
  trainer_already_reached_amended cfgMax5 keepVars 5 [0] [batch1] 5
    (by decide) (by decide)

/-- After a loop over at least one batch, the local `step` holds the final
counter value. -/
theorem runLoop_step_var (cfg : TrainerConfig) (f : List (Int × Int) → List Int) :
    ∀ (bs : List Batch) (i : Nat) (st : TrainState), bs ≠ [] →
      (runLoop cfg f i bs st).1.step_var
        = some (runLoop cfg f i bs st).1.iterations := by
  intro bs
  induction bs with
  | nil => intro i st h; exact absurd rfl h
  | cons b bs ih =>
    intro i st _
    have hms : (microStep cfg f i b st).1.step_var
        = some (microStep cfg f i b st).1.iterations := by
      rw [microStep_step_var, microStep_iterations]
    by_cases hbs : bs = []
    · subst hbs
      cases hbrk : (microStep cfg f i b st).2 <;>
        simp [runLoop, hbrk, hms]
    · cases hbrk : (microStep cfg f i b st).2
      · simp only [runLoop, hbrk, Bool.false_eq_true, if_false]
        exact ih (i + 1) (microStep cfg f i b st).1 hbs
      · simp only [runLoop, hbrk, if_true]
        exact hms

/-- C5 counterexample: a run whose dataset is empty is exhausted before
`max_step = 10` is reached, yet the final `self._checkpoint.save(step)` on
training.py line 137 reads the never-assigned local `step` — the call ends
in the `UnboundLocalError` outcome and no checkpoint at all is saved,
refuting both the claimed final save and the claim that exhaustion is not
surfaced as an error. -/
theorem trainer_exhaustion_counterexample :
    trainerCall cfgMax10 keepVars 0 [0] [] = CallResult.unboundLocalStep (initState 0 [0])
    ∧ (trainerCall cfgMax10 keepVars 0 [0] []).savedSteps = [] := by
  decide

/-- C5 amended: when the dataset is exhausted after at least one micro-step
and before any `max_step` bound is met, the loop ends without breaking and
the call finishes with exactly one final checkpoint save appended, tagged
with the last completed global step (the final counter value), and no
error. -/
theorem trainer_exhaustion_amended (cfg : TrainerConfig)
    (f : List (Int × Int) → List Int) (init : Nat) (vars0 : List Int)
    (batches : List Batch) (st' : TrainState)
    (hne : batches ≠ [])
    (hguard : ∀ m, cfg.max_step = some m → init < m)
    (hrun : runLoop cfg f 0 batches (initState init vars0) = (st', false)) :
    trainerCall cfg f init vars0 batches
      = CallResult.finished { st' with saved := st'.saved ++ [st'.iterations] } false
    ∧ (trainerCall cfg f init vars0 batches).savedSteps
      = st'.saved ++ [st'.iterations] := by
  have hv : st'.step_var = some st'.iterations := by
    have h := runLoop_step_var cfg f batches 0 (initState init vars0) hne
    rw [hrun] at h
    exact h
  have hbody : trainerBody cfg f init vars0 batches
      = CallResult.finished { st' with saved := st'.saved ++ [st'.iterations] } false := by
    simp only [trainerBody, hrun, hv]
  have hcall : trainerCall cfg f init vars0 batches
      = trainerBody cfg f init vars0 batches := by
    cases hmax : cfg.max_step with
    | none => simp [trainerCall, hmax]
    | some m =>
      have hlt : ¬m ≤ init := by
        have := hguard m hmax
        omega
      simp [trainerCall, hmax, hlt]
  rw [hcall, hbody]
  exact ⟨rfl, rfl⟩

/-- Closed instance of `trainer_exhaustion_amended`: one batch, no
`max_step`; the run finishes with the single final save appended. -/
theorem trainer_exhaustion_amended_witness :
    trainerCall cfgPlain keepVars 0 [0] [batch1]
      = CallResult.finished
          { (runLoop cfgPlain keepVars 0 [batch1] (initState 0 [0])).1 with
            saved := (runLoop cfgPlain keepVars 0 [batch1] (initState 0 [0])).1.saved
              ++ [(runLoop cfgPlain keepVars 0 [batch1] (initState 0 [0])).1.iterations] }
          false :=
  (trainer_exhaustion_amended cfgPlain keepVars 0 [0] [batch1]
    (runLoop cfgPlain keepVars 0 [batch1] (initState 0 [0])).1
    (by decide) (fun m hm => by simp [cfgPlain] at hm) (by decide)).1

/-- Invariant induction for a loop that ends in `break`: starting below
`max_step = M` with `last_step` at most the counter and every recorded save
at most `last_step`, when the loop breaks it does so at counter value `M`,
the local `step` holds `M`, and — when `save_steps = S` divides `M` — the
save log contains `M` exactly once (the cadence save of training.py lines
130-131). -/
theorem runLoop_break_invariant (cfg : TrainerConfig)
    (f : List (Int × Int) → List Int) (M S : Nat)
    (hM : cfg.max_step = some M) (hS : cfg.save_steps = some S) (hdvd : S ∣ M) :
    ∀ (bs : List Batch) (i : Nat) (st st' : TrainState),
      st.iterations < M → st.last_step ≤ st.iterations →
      (∀ x ∈ st.saved, x ≤ st.last_step) →
      runLoop cfg f i bs st = (st', true) →
      st'.iterations = M ∧ st'.step_var = some M ∧ List.count M st'.saved = 1 := by
  intro bs
  induction bs with
  | nil =>
    intro i st st' _ _ _ hrun
    simp [runLoop] at hrun
  | cons b bs ih =>
    intro i st st' h1 h2 h3 hrun
    have hit := microStep_iterations cfg f i b st
    have hsv := microStep_step_var cfg f i b st
    have hdle : (if i = 0 ∨ (i + 1) % cfg.accum_steps = 0 then 1 else 0) ≤ 1 := by
      split_ifs <;> omega
    by_cases hskip : st.iterations
        + (if i = 0 ∨ (i + 1) % cfg.accum_steps = 0 then 1 else 0) = st.last_step
    · obtain ⟨hsav, _, _, _, hls, _, _, hbrk⟩ := microStep_skip_frame cfg f i b st hskip
      simp only [runLoop, hbrk, Bool.false_eq_true, if_false] at hrun
      generalize hd : (if i = 0 ∨ (i + 1) % cfg.accum_steps = 0 then 1 else 0) = d
        at hit hskip hdle
      apply ih (i + 1) (microStep cfg f i b st).1 st' _ _ _ hrun
      · omega
      · omega
      · intro x hx
        rw [hsav] at hx
        rw [hls]
        exact h3 x hx
    · obtain ⟨hls, hsav, hbrk⟩ := microStep_processed cfg f i b st hskip
      cases hb2 : (microStep cfg f i b st).2 with
      | true =>
        simp only [runLoop, hb2, if_true] at hrun
        injection hrun with hst1 hst2
        rw [hb2, hM] at hbrk
        have hMit : M = st.iterations
            + (if i = 0 ∨ (i + 1) % cfg.accum_steps = 0 then 1 else 0) :=
          Option.some.inj (of_decide_eq_true hbrk.symm)
        refine ⟨?_, ?_, ?_⟩
        · rw [← hst1, hit, ← hMit]
        · rw [← hst1, hsv, ← hMit]
        · rw [← hst1, hsav, ← hMit]
          have hmod : M % S = 0 := Nat.dvd_iff_mod_eq_zero.mp hdvd
          have hsa : savedAppend cfg M = [M] := by
            simp [savedAppend, hS, hmod]
          rw [hsa]
          have hzero : List.count M st.saved = 0 := by
            rw [List.count_eq_zero]
            intro hmem
            have := h3 M hmem
            omega
          rw [List.count_append, hzero]
          simp
      | false =>
        simp only [runLoop, hb2, Bool.false_eq_true, if_false] at hrun
        have hne : st.iterations
            + (if i = 0 ∨ (i + 1) % cfg.accum_steps = 0 then 1 else 0) ≠ M := by
          intro he
          rw [hb2, hM, he] at hbrk
          simp at hbrk
        generalize hd : (if i = 0 ∨ (i + 1) % cfg.accum_steps = 0 then 1 else 0) = d
          at hit hsv hls hsav hne hskip hdle
        apply ih (i + 1) (microStep cfg f i b st).1 st' _ _ _ hrun
        · omega
        · omega
        · intro x hx
          rw [hsav] at hx
          rw [hls]
          rcases List.mem_append.mp hx with hx | hx
          · have := h3 x hx
            omega
          · simp only [savedAppend, hS] at hx
            split_ifs at hx
            · simp at hx
              omega
            · simp at hx

/-- C9: in every run that stops by reaching `max_step = M`, when `M` is a
positive multiple of `save_steps`, the save log contains `M` exactly twice:
once from the `save_steps` cadence (training.py lines 130-131) and once
from the final `checkpoint.save(step)` after the loop (line 137). -/
theorem trainer_double_final_save (cfg : TrainerConfig)
    (f : List (Int × Int) → List Int) (init : Nat) (vars0 : List Int)
    (batches : List Batch) (st' : TrainState) (M S : Nat)
    (hM : cfg.max_step = some M) (hS : cfg.save_steps = some S)
    (hdvd : S ∣ M) (hpos : 0 < M)
    (hrun : trainerCall cfg f init vars0 batches = CallResult.finished st' true) :
    List.count M st'.saved = 2 := by
  simp only [trainerCall, hM] at hrun
  by_cases hle : M ≤ init
  · rw [if_pos hle] at hrun
    cases hrun
  · rw [if_neg hle] at hrun
    simp only [trainerBody] at hrun
    cases hsv : (runLoop cfg f 0 batches (initState init vars0)).1.step_var with
    | none =>
      simp only [hsv] at hrun
      cases hrun
    | some s =>
      simp only [hsv] at hrun
      injection hrun with hA hB
      have hpair : runLoop cfg f 0 batches (initState init vars0)
          = ((runLoop cfg f 0 batches (initState init vars0)).1, true) := by
        rw [← hB]
      obtain ⟨hI, hV, hC⟩ := runLoop_break_invariant cfg f M S hM hS hdvd batches 0
        (initState init vars0) (runLoop cfg f 0 batches (initState init vars0)).1
        (by simp only [initState]; omega)
        (by simp only [initState]; omega)
        (by simp only [initState]; intro x hx; cases hx)
        hpair
      have hsM : s = M := by
        rw [hsv] at hV
        exact Option.some.inj hV
      rw [← hA]
      show List.count M ((runLoop cfg f 0 batches (initState init vars0)).1.saved ++ [s]) = 2
      rw [hsM, List.count_append, hC]
      simp

/-- Closed instance of `trainer_double_final_save`: `max_step = 2`,
`save_steps = 1`, two batches; the run saves at step `2` twice. -/
theorem trainer_double_final_save_witness :
    List.count 2 (TrainState.saved
      ⟨2, [0], [0], 20, 0, 2, 0, 2, some 2, [1, 2, 2], [], []⟩) = 2 :=
  trainer_double_final_save cfgMax2Save1 keepVars 0 [0] [batch1, batch1]
    ⟨2, [0], [0], 20, 0, 2, 0, 2, some 2, [1, 2, 2], [], []⟩ 2 1
    (by decide) (by decide) (by decide) (by decide) (by decide)
